import Mathlib

/-!
Shallow embedding of the download scripts of the FDI_crowding_effects
repository (src/Code/get_investments_data.py and
src/Code/get_other_controls.py).

Bytes are modelled as `List Nat` (one entry per byte), decoded text as
`List Nat` of Unicode code points, and Python strings that only flow into
filenames as Lean `String`.  HTTP and filesystem interaction is modelled by
an explicit environment (`DownloadEnv`) and an effect value (`FsEffect`):
the environment says whether the request raises, whether the body iterator
raises, and whether opening or writing the output file raises, and the
effect records which file ends up on disk with which bytes.
-/

/-- Code points of an ASCII string literal; also used for the byte values of
an ASCII Python bytes literal such as the interior ZIP markers. -/
def strCps (s : String) : List Nat := s.toList.map Char.toNat

/-- Python `needle in hay` on bytes: contiguous-substring test. -/
def bytesContains (needle : List Nat) : List Nat → Bool
  | [] => needle.isPrefixOf []
  | b :: rest => needle.isPrefixOf (b :: rest) || bytesContains needle rest

/-- A UTF-8 continuation byte (0x80..0xBF). -/
def isContByte (b : Nat) : Bool := 0x80 ≤ b && b ≤ 0xBF

/-- Valid first continuation byte after a three-byte leader (0xE0 excludes
overlong forms, 0xED excludes surrogates). -/
def cont3Ok (b b2 : Nat) : Bool :=
  if b = 0xE0 then 0xA0 ≤ b2 && b2 ≤ 0xBF
  else if b = 0xED then 0x80 ≤ b2 && b2 ≤ 0x9F
  else isContByte b2

/-- Valid first continuation byte after a four-byte leader (0xF0 excludes
overlong forms, 0xF4 caps at U+10FFFF). -/
def cont4Ok (b b2 : Nat) : Bool :=
  if b = 0xF0 then 0x90 ≤ b2 && b2 ≤ 0xBF
  else if b = 0xF4 then 0x80 ≤ b2 && b2 ≤ 0x8F
  else isContByte b2

/-- One step of the UTF-8 decoder with the ignore error handler: given a
leading byte and the remaining bytes, return the decoded code point (or
`none` when the maximal subpart starting at the leading byte is invalid)
and how many bytes beyond the leading byte were consumed. -/
def utf8Step (b : Nat) (rest : List Nat) : Option Nat × Nat :=
  if b ≤ 0x7F then (some b, 0)
  else if b < 0xC2 then (none, 0)
  else if b ≤ 0xDF then
    match rest with
    | b2 :: _ =>
      if isContByte b2 then (some ((b - 0xC0) * 64 + (b2 - 0x80)), 1) else (none, 0)
    | _ => (none, 0)
  else if b ≤ 0xEF then
    match rest with
    | b2 :: tail =>
      if cont3Ok b b2 then
        match tail with
        | b3 :: _ =>
          if isContByte b3 then
            (some ((b - 0xE0) * 4096 + (b2 - 0x80) * 64 + (b3 - 0x80)), 2)
          else (none, 1)
        | _ => (none, 1)
      else (none, 0)
    | _ => (none, 0)
  else if b ≤ 0xF4 then
    match rest with
    | b2 :: tail =>
      if cont4Ok b b2 then
        match tail with
        | b3 :: tail2 =>
          if isContByte b3 then
            match tail2 with
            | b4 :: _ =>
              if isContByte b4 then
                (some ((b - 0xF0) * 262144 + (b2 - 0x80) * 4096 + (b3 - 0x80) * 64
                    + (b4 - 0x80)), 3)
              else (none, 2)
            | _ => (none, 2)
          else (none, 1)
        | _ => (none, 1)
      else (none, 0)
    | _ => (none, 0)
  else (none, 0)

/-- Worker for the UTF-8 ignore decoder.  The fuel argument only makes the
recursion structural (each step consumes at least one byte, so a fuel of
the list length is always enough); it never changes the result reached. -/
def utf8DecodeIgnoreAux : Nat → List Nat → List Nat
  | 0, _ => []
  | _, [] => []
  | fuel + 1, b :: rest =>
    match utf8Step b rest with
    | (some cp, k) => cp :: utf8DecodeIgnoreAux fuel (rest.drop k)
    | (none, k) => utf8DecodeIgnoreAux fuel (rest.drop k)

/-- Python `bytes.decode` with encoding utf-8 and the ignore error handler:
decode the byte list to a code-point list, silently skipping every invalid
maximal subpart.  Total on every byte list. -/
def utf8DecodeIgnore (l : List Nat) : List Nat := utf8DecodeIgnoreAux l.length l

/-- ASCII lower-casing of one code point.  The scripts apply Python
`str.lower`; all markers the code then compares against are ASCII, and no
non-ASCII code point lower-cases to any of the compared ASCII characters,
so the ASCII case map is observationally sufficient here. -/
def asciiLowerCp (c : Nat) : Nat := if 65 ≤ c ∧ c ≤ 90 then c + 32 else c

/-- Python whitespace test used by `str.strip` (ASCII whitespace; the
content types the scripts ever compare are ASCII). -/
def isPyWs (c : Nat) : Bool := c = 32 || c = 9 || c = 10 || c = 13 || c = 11 || c = 12

/-- Drop the longest suffix whose elements satisfy `p`. -/
def dropTrailing (p : Nat → Bool) (l : List Nat) : List Nat :=
  (l.reverse.dropWhile p).reverse

/-- Python `str.strip` with no argument: drop leading and trailing
whitespace code points. -/
def pyStripWs (l : List Nat) : List Nat := dropTrailing isPyWs (l.dropWhile isPyWs)

/-- The normalisation both get_file_extension_from_content_type functions
apply to the header value (as code points): split at the first semicolon
(code point 59), strip whitespace, lower-case. -/
def cleanContentType (cps : List Nat) : List Nat :=
  (pyStripWs (cps.takeWhile (fun c => c ≠ 59))).map asciiLowerCp

/-- The part of a header string before its first semicolon (what Python
split at the semicolon keeps as element zero). -/
def truncateAtFirstSemicolon (s : String) : String :=
  String.mk (s.toList.takeWhile (fun c => c ≠ ';'))

/-- Shared lookup core of both get_file_extension_from_content_type
functions: normalise the header value and look it up in the profile's
table, returning the profile's default label on a miss. -/
def lookupExtension (table : List (List Nat × String)) (dflt : String)
    (cps : List Nat) : String :=
  ((table.find? (fun p => p.1 == cleanContentType cps)).map Prod.snd).getD dflt

/-- What one download_file call leaves on the filesystem: nothing, or one
file with the given name holding the given bytes. -/
inductive FsEffect where
  | noFile : FsEffect
  | wrote (name : String) (data : List Nat) : FsEffect
deriving DecidableEq, Repr

/-- The environment one download_file call runs in.  `response` is `none`
when requests.get or raise_for_status raises a RequestException (timeout,
connection error, non-2xx status), and otherwise carries the content-type
header value (absent header modelled as the empty string, as in the code)
and the body chunks iter_content yields.  `streamErr` set means
iter_content raises after yielding that many chunks.  `openErr` means the
open of the output file raises (no file is created).  `writeErr = some j`
means the write of chunk j raises, leaving the chunks before it on disk
(effective only when chunk j exists). -/
structure DownloadEnv where
  response : Option (String × List (List Nat))
  streamErr : Option Nat
  openErr : Bool
  writeErr : Option Nat
deriving Repr

/-- Shared body of the two download_file functions (their Python bodies are
line-for-line identical up to the profile's classifiers and resolution
step, passed here as `detect`, `getExt` and `resolve`).  Every raising
path is converted by the try/except blocks into ((false, none), _).  When
iter_content yields no chunk, extension_from_content is never assigned and
reading it in the resolution step raises UnboundLocalError, caught by the
generic except clause: that is the empty-chunks failure case.  The output
file is opened and written only after the chunk loop has finished, so the
only effects are no file at all, a fully written file on success, or the
chunks written before a failing write call. -/
def downloadWith (detect : List Nat → String) (getExt : String → String)
    (resolve : String → String → String) (env : DownloadEnv)
    (base_filename : String) : (Bool × Option String) × FsEffect :=
  match env.response with
  | none => ((false, none), .noFile)
  | some (content_type, chunks) =>
    let extension_from_header := getExt content_type
    match env.streamErr with
    | some _ => ((false, none), .noFile)
    | none =>
      match chunks with
      | [] => ((false, none), .noFile)
      | first_chunk :: _ =>
        let extension_from_content := detect first_chunk
        let final_extension := resolve extension_from_content extension_from_header
        let final_filename := base_filename ++ final_extension
        if env.openErr then ((false, none), .noFile)
        else
          match env.writeErr with
          | some j =>
            if j < chunks.length then
              ((false, none), .wrote final_filename (chunks.take j).flatten)
            else ((true, some final_filename), .wrote final_filename chunks.flatten)
          | none => ((true, some final_filename), .wrote final_filename chunks.flatten)

namespace GetInvestmentsData

/-- The content_type_map dictionary of get_investments_data.py, as an
association list in insertion order (keys as code points). -/
def content_type_map : List (List Nat × String) :=
  [ (strCps "application/pdf", ".pdf"),
    (strCps "application/vnd.ms-excel", ".xls"),
    (strCps "application/vnd.openxmlformats-officedocument.spreadsheetml.sheet", ".xlsx"),
    (strCps "application/zip", ".zip"),
    (strCps "application/x-rar-compressed", ".rar"),
    (strCps "application/x-7z-compressed", ".7z"),
    (strCps "application/octet-stream", ".bin"),
    (strCps "text/csv", ".csv"),
    (strCps "application/json", ".json"),
    (strCps "text/plain", ".txt"),
    (strCps "application/xml", ".xml"),
    (strCps "text/xml", ".xml") ]

/-- Core of get_file_extension_from_content_type over the code points of the
header value: split at the first semicolon, strip whitespace, lower-case,
look up, default to the fallback label .file. -/
def get_file_extension_from_content_type_cps (cps : List Nat) : String :=
  lookupExtension content_type_map ".file" cps

/-- get_file_extension_from_content_type of get_investments_data.py. -/
def get_file_extension_from_content_type (content_type : String) : String :=
  get_file_extension_from_content_type_cps (strCps content_type)

/-- The magic_numbers dictionary of get_investments_data.py.  The Python
source lists the key 50 4B 03 04 twice (first with value .zip, later with
value .xlsx); Python dict semantics keep the first position with the last
value, so the association list has one entry for that key, in first
position, with value .xlsx. -/
def magic_numbers : List (List Nat × String) :=
  [ ([0x50, 0x4B, 0x03, 0x04], ".xlsx"),
    ([0x50, 0x4B, 0x05, 0x06], ".zip"),
    ([0x50, 0x4B, 0x07, 0x08], ".zip"),
    ([0x52, 0x61, 0x72, 0x21], ".rar"),
    ([0x37, 0x7A, 0xBC, 0xAF, 0x27, 0x1C], ".7z"),
    ([0x25, 0x50, 0x44, 0x46], ".pdf"),
    ([0xD0, 0xCF, 0x11, 0xE0, 0xA1, 0xB1, 0x1A, 0xE1], ".xls"),
    ([0x1F, 0x8B], ".gz"),
    ([0x42, 0x5A, 0x68], ".bz2") ]

/-- detect_file_type_from_content of get_investments_data.py: the first
magic-number match wins; on the ZIP signature 50 4B 03 04 the first 1024
bytes are scanned for interior markers; with no magic match the first 1024
bytes are decoded best-effort, lower-cased and sniffed for XML, JSON and
CSV shapes; otherwise the fallback label .file. -/
def detect_file_type_from_content (content : List Nat) : String :=
  if content = [] then ".file"
  else
    match magic_numbers.find? (fun p => p.1.isPrefixOf content) with
    | some (magic, ext) =>
      if magic = [0x50, 0x4B, 0x03, 0x04] then
        if bytesContains (strCps "xl/") (content.take 1024)
            || bytesContains (strCps "[Content_Types].xml") (content.take 1024) then
          ".xlsx"
        else if bytesContains (strCps "word/") (content.take 1024) then ".docx"
        else ".zip"
      else ext
    | none =>
      let content_str := (utf8DecodeIgnore (content.take 1024)).map asciiLowerCp
      if (strCps "<?xml").isPrefixOf content_str then ".xml"
      -- 123 and 91 are the code points of the opening brace and bracket
      else if [123].isPrefixOf content_str || [91].isPrefixOf content_str then ".json"
      else if content_str.contains 44 && content_str.contains 10 then ".csv"
      else ".file"

/-- The extension-resolution step of download_file (get_investments_data.py
lines 102-111): the content-derived extension wins unless it is the
fallback sentinel .file, then the header-derived extension unless it is
.file, then the default .file. -/
def resolveExtension (extension_from_content extension_from_header : String) : String :=
  if extension_from_content ≠ ".file" then extension_from_content
  else if extension_from_header ≠ ".file" then extension_from_header
  else ".file"

/-- download_file of get_investments_data.py over an explicit environment:
returns the (success, filename) pair the Python function returns together
with the filesystem effect; the shared body is instantiated with this
profile's classifiers and resolution step. -/
def download_file (env : DownloadEnv) (base_filename : String) :
    (Bool × Option String) × FsEffect :=
  downloadWith detect_file_type_from_content get_file_extension_from_content_type
    resolveExtension env base_filename

end GetInvestmentsData

namespace GetOtherControls

/-- The content_type_map dictionary of get_other_controls.py. -/
def content_type_map : List (List Nat × String) :=
  [ (strCps "application/vnd.ms-excel", ".xls"),
    (strCps "application/vnd.openxmlformats-officedocument.spreadsheetml.sheet", ".xlsx"),
    (strCps "application/octet-stream", ".xlsx"),
    (strCps "text/csv", ".csv"),
    (strCps "application/json", ".json"),
    (strCps "text/plain", ".txt"),
    (strCps "application/xml", ".xml"),
    (strCps "text/xml", ".xml") ]

/-- Core of get_file_extension_from_content_type of get_other_controls.py
over code points; the default label is .xlsx. -/
def get_file_extension_from_content_type_cps (cps : List Nat) : String :=
  lookupExtension content_type_map ".xlsx" cps

/-- get_file_extension_from_content_type of get_other_controls.py. -/
def get_file_extension_from_content_type (content_type : String) : String :=
  get_file_extension_from_content_type_cps (strCps content_type)

/-- The magic_numbers dictionary of get_other_controls.py. -/
def magic_numbers : List (List Nat × String) :=
  [ ([0xD0, 0xCF, 0x11, 0xE0, 0xA1, 0xB1, 0x1A, 0xE1], ".xls"),
    ([0x50, 0x4B, 0x03, 0x04], ".xlsx"),
    ([0x50, 0x4B, 0x05, 0x06], ".xlsx"),
    ([0x50, 0x4B, 0x07, 0x08], ".xlsx") ]

/-- detect_file_type_from_content of get_other_controls.py: empty content
and no-match content both fall back to .xlsx; on a ZIP-family magic (one
starting 50 4B) the interior-marker scan may confirm .xlsx, and otherwise
the matched value (itself .xlsx for all ZIP-family entries) is returned. -/
def detect_file_type_from_content (content : List Nat) : String :=
  if content = [] then ".xlsx"
  else
    match magic_numbers.find? (fun p => p.1.isPrefixOf content) with
    | some (magic, ext) =>
      if [0x50, 0x4B].isPrefixOf magic then
        if bytesContains (strCps "xl/") (content.take 1024)
            || bytesContains (strCps "[Content_Types].xml") (content.take 1024) then
          ".xlsx"
        else ext
      else ext
    | none => ".xlsx"

/-- Characters get_other_controls.py replaces in filenames. -/
def invalid_chars : List Char := ['<', '>', ':', '"', '/', '\\', '|', '?', '*']

/-- Python str.replace of one character by another over the char list. -/
def pyReplaceChar (c r : Char) (l : List Char) : List Char :=
  l.map (fun x => if x = c then r else x)

/-- Drop the longest leading and trailing runs of characters from `set`
(Python str.strip with an explicit character set). -/
def pyStripSet (set : List Char) (l : List Char) : List Char :=
  (((l.dropWhile (fun c => c ∈ set)).reverse.dropWhile (fun c => c ∈ set))).reverse

/-- sanitize_filename of get_other_controls.py: replace each character of
invalid_chars by an underscore, strip leading and trailing dots and
spaces, then truncate to 200 characters. -/
def sanitize_filename (filename : String) : String :=
  let replaced := invalid_chars.foldl (fun acc c => pyReplaceChar c '_' acc) filename.toList
  let stripped := pyStripSet ['.', ' '] replaced
  let capped := if stripped.length > 200 then stripped.take 200 else stripped
  String.mk capped

/-- The extension-resolution step of download_file (get_other_controls.py
lines 96-105): the content-derived extension wins when it is .xls or
.xlsx, then the header-derived extension when it is .xls or .xlsx, then
the default .xlsx.  Note the tests are set membership, not inequality
with the fallback sentinel. -/
def resolveExtension (extension_from_content extension_from_header : String) : String :=
  if extension_from_content = ".xls" ∨ extension_from_content = ".xlsx" then
    extension_from_content
  else if extension_from_header = ".xls" ∨ extension_from_header = ".xlsx" then
    extension_from_header
  else ".xlsx"

/-- download_file of get_other_controls.py over an explicit environment;
the shared body instantiated with the spreadsheet-only classifiers and
resolution step. -/
def download_file (env : DownloadEnv) (base_filename : String) :
    (Bool × Option String) × FsEffect :=
  downloadWith detect_file_type_from_content get_file_extension_from_content_type
    resolveExtension env base_filename

end GetOtherControls

/-! ## Helper lemmas -/

theorem char_toNat_inj {c d : Char} (h : c.toNat = d.toNat) : c = d :=
  Char.ext (UInt32.toNat.inj h)

theorem asciiLowerCp_eq_59 (c : Nat) : asciiLowerCp c = 59 ↔ c = 59 := by
  unfold asciiLowerCp
  split <;> omega

theorem asciiLowerCp_idem (c : Nat) : asciiLowerCp (asciiLowerCp c) = asciiLowerCp c := by
  unfold asciiLowerCp
  by_cases h : 65 ≤ c ∧ c ≤ 90
  · rw [if_pos h, if_neg (by omega)]
  · rw [if_neg h, if_neg h]

theorem isPyWs_asciiLowerCp (c : Nat) : isPyWs (asciiLowerCp c) = isPyWs c := by
  unfold asciiLowerCp
  split
  · have h1 : isPyWs (c + 32) = false := by simp [isPyWs]; omega
    have h2 : isPyWs c = false := by simp [isPyWs]; omega
    rw [h1, h2]
  · rfl

theorem takeWhile_map_lower (l : List Nat) :
    (l.map asciiLowerCp).takeWhile (fun c => c ≠ 59)
      = (l.takeWhile (fun c => c ≠ 59)).map asciiLowerCp := by
  have hp : ((fun c => decide (c ≠ 59)) ∘ asciiLowerCp) = (fun c : Nat => decide (c ≠ 59)) := by
    funext c
    simp only [Function.comp_apply, decide_eq_decide]
    exact not_congr (asciiLowerCp_eq_59 c)
  rw [List.takeWhile_map, hp]

theorem pyStripWs_map_lower (l : List Nat) :
    pyStripWs (l.map asciiLowerCp) = (pyStripWs l).map asciiLowerCp := by
  unfold pyStripWs dropTrailing
  have hp : (isPyWs ∘ asciiLowerCp) = isPyWs := funext isPyWs_asciiLowerCp
  rw [List.dropWhile_map, hp, ← List.map_reverse, List.dropWhile_map, hp, List.map_reverse]

theorem cleanContentType_lower (l : List Nat) :
    cleanContentType (l.map asciiLowerCp) = cleanContentType l := by
  unfold cleanContentType
  rw [takeWhile_map_lower, pyStripWs_map_lower, List.map_map]
  congr 1
  funext c
  simp only [Function.comp_apply]
  exact asciiLowerCp_idem c

theorem cleanContentType_truncate (l : List Nat) :
    cleanContentType (l.takeWhile (fun c => c ≠ 59)) = cleanContentType l := by
  unfold cleanContentType
  rw [List.takeWhile_idem]

theorem cleanContentType_cons_space (l : List Nat) :
    cleanContentType (32 :: l) = cleanContentType l := by
  unfold cleanContentType pyStripWs
  rw [List.takeWhile_cons, if_pos (by decide), List.dropWhile_cons_of_pos (by decide)]

theorem pyStripWs_append_space (l : List Nat) : pyStripWs (l ++ [32]) = pyStripWs l := by
  unfold pyStripWs dropTrailing
  rw [List.dropWhile_append]
  split
  · rename_i h
    rw [List.isEmpty_iff] at h
    rw [h]
    decide
  · rw [List.reverse_append]
    simp only [List.reverse_cons, List.reverse_nil, List.nil_append, List.singleton_append]
    rw [List.dropWhile_cons_of_pos (by decide)]

theorem cleanContentType_append_space (l : List Nat) :
    cleanContentType (l ++ [32]) = cleanContentType l := by
  unfold cleanContentType
  rw [List.takeWhile_append]
  split
  · rename_i h
    have heq : l.takeWhile (fun c => c ≠ 59) = l :=
      (List.takeWhile_prefix _).eq_of_length h
    rw [show ([32].takeWhile (fun c => (c : Nat) ≠ 59)) = [32] by decide]
    rw [pyStripWs_append_space, heq]
  · rfl

theorem lookupExtension_ext {table : List (List Nat × String)} {dflt : String}
    {l l₂ : List Nat} (h : cleanContentType l = cleanContentType l₂) :
    lookupExtension table dflt l = lookupExtension table dflt l₂ := by
  unfold lookupExtension
  rw [h]

theorem char_toNat_eq_59 (c : Char) : c.toNat = 59 ↔ c = ';' :=
  ⟨fun h => char_toNat_inj h, fun h => by subst h; decide⟩

theorem strCps_truncate (s : String) :
    strCps (truncateAtFirstSemicolon s) = (strCps s).takeWhile (fun c => c ≠ 59) := by
  unfold strCps truncateAtFirstSemicolon
  rw [show (String.mk (s.toList.takeWhile (fun c => c ≠ ';'))).toList
    = s.toList.takeWhile (fun c => c ≠ ';') from rfl]
  have hp : ((fun c => decide (c ≠ 59)) ∘ Char.toNat) = (fun c : Char => decide (c ≠ ';')) := by
    funext c
    simp only [Function.comp_apply, decide_eq_decide]
    exact not_congr (char_toNat_eq_59 c)
  rw [List.takeWhile_map, hp]

theorem mem_pyReplaceChar {c a r : Char} {l : List Char}
    (h : c ∈ GetOtherControls.pyReplaceChar a r l) : c = r ∨ (c ∈ l ∧ c ≠ a) := by
  unfold GetOtherControls.pyReplaceChar at h
  obtain ⟨x, hx, heq⟩ := List.mem_map.mp h
  by_cases hxa : x = a
  · subst hxa
    rw [if_pos rfl] at heq
    exact Or.inl heq.symm
  · rw [if_neg hxa] at heq
    subst heq
    exact Or.inr ⟨hx, hxa⟩

theorem length_pyReplaceChar (a r : Char) (l : List Char) :
    (GetOtherControls.pyReplaceChar a r l).length = l.length := by
  unfold GetOtherControls.pyReplaceChar
  exact List.length_map l _

theorem mem_replace_foldl {c : Char} :
    ∀ (cs l : List Char),
      c ∈ cs.foldl (fun acc ch => GetOtherControls.pyReplaceChar ch '_' acc) l →
      c = '_' ∨ (c ∈ l ∧ c ∉ cs) := by
  intro cs
  induction cs with
  | nil =>
    intro l h
    exact Or.inr ⟨h, by simp⟩
  | cons a t ih =>
    intro l h
    simp only [List.foldl_cons] at h
    rcases ih _ h with h1 | ⟨h2, h3⟩
    · exact Or.inl h1
    · rcases mem_pyReplaceChar h2 with h4 | ⟨h5, h6⟩
      · exact Or.inl h4
      · refine Or.inr ⟨h5, ?_⟩
        simp only [List.mem_cons, not_or]
        exact ⟨h6, h3⟩

theorem length_replace_foldl :
    ∀ (cs l : List Char),
      (cs.foldl (fun acc ch => GetOtherControls.pyReplaceChar ch '_' acc) l).length
        = l.length := by
  intro cs
  induction cs with
  | nil => intro l; rfl
  | cons a t ih =>
    intro l
    simp only [List.foldl_cons]
    rw [ih, length_pyReplaceChar]

theorem pyStripSet_subset {set l : List Char} {c : Char}
    (h : c ∈ GetOtherControls.pyStripSet set l) : c ∈ l := by
  unfold GetOtherControls.pyStripSet at h
  rw [List.mem_reverse] at h
  have h2 := (List.dropWhile_sublist _).subset h
  rw [List.mem_reverse] at h2
  exact (List.dropWhile_sublist _).subset h2

theorem pyStripSet_leading (set l : List Char) :
    GetOtherControls.pyStripSet set l <+: l.dropWhile (fun c => c ∈ set) := by
  unfold GetOtherControls.pyStripSet
  have hs : (l.dropWhile (fun c => c ∈ set)).reverse.dropWhile (fun c => c ∈ set)
      <:+ (l.dropWhile (fun c => c ∈ set)).reverse := List.dropWhile_suffix _
  have h2 := List.reverse_prefix.mpr hs
  rwa [List.reverse_reverse] at h2

theorem head?_pyStripSet {set l : List Char} {c : Char}
    (h : (GetOtherControls.pyStripSet set l).head? = some c) : c ∉ set := by
  obtain ⟨t, ht⟩ := pyStripSet_leading set l
  cases hstrip : GetOtherControls.pyStripSet set l with
  | nil =>
    rw [hstrip] at h
    simp at h
  | cons d rest =>
    rw [hstrip] at h ht
    simp only [List.head?_cons, Option.some.injEq] at h
    have hm : (l.dropWhile (fun x => x ∈ set)).head? = some d := by
      rw [← ht]
      rfl
    have hd := List.head?_dropWhile_not (fun x => decide (x ∈ set)) l
    rw [hm] at hd
    rw [← h]
    simpa using hd

theorem getLast?_pyStripSet {set l : List Char} {c : Char}
    (h : (GetOtherControls.pyStripSet set l).getLast? = some c) : c ∉ set := by
  unfold GetOtherControls.pyStripSet at h
  rw [← List.head?_reverse, List.reverse_reverse] at h
  have hd := List.head?_dropWhile_not (fun c => decide (c ∈ set))
    (l.dropWhile (fun c => c ∈ set)).reverse
  rw [h] at hd
  simpa using hd

theorem head?_take_200 (l : List Char) : (l.take 200).head? = l.head? := by
  cases l with
  | nil => rfl
  | cons a t => rfl

theorem detect_investments_zip (content : List Nat)
    (h : [0x50, 0x4B, 0x03, 0x04].isPrefixOf content = true) :
    GetInvestmentsData.detect_file_type_from_content content =
      (if bytesContains (strCps "xl/") (content.take 1024)
          || bytesContains (strCps "[Content_Types].xml") (content.take 1024) then ".xlsx"
       else if bytesContains (strCps "word/") (content.take 1024) then ".docx"
       else ".zip") := by
  have hne : content ≠ [] := by
    intro hc
    rw [hc] at h
    simp [List.isPrefixOf] at h
  unfold GetInvestmentsData.detect_file_type_from_content
  rw [if_neg hne]
  have hfind : GetInvestmentsData.magic_numbers.find? (fun p => p.1.isPrefixOf content)
      = some ([0x50, 0x4B, 0x03, 0x04], ".xlsx") := by
    unfold GetInvestmentsData.magic_numbers
    rw [List.find?_cons_of_pos]
    exact h
  rw [hfind]
  rfl

theorem detect_mem_investments (content : List Nat) :
    GetInvestmentsData.detect_file_type_from_content content ∈
      ([".xlsx", ".docx", ".zip", ".rar", ".7z", ".pdf", ".xls", ".gz", ".bz2",
        ".xml", ".json", ".csv", ".file"] : List String) := by
  unfold GetInvestmentsData.detect_file_type_from_content
  split
  · decide
  · rcases hfind : GetInvestmentsData.magic_numbers.find? (fun p => p.1.isPrefixOf content)
      with _ | ⟨magic, ext⟩
    · rw [hfind]
      show (if (strCps "<?xml").isPrefixOf ((utf8DecodeIgnore (content.take 1024)).map asciiLowerCp) then ".xml"
        else if [123].isPrefixOf ((utf8DecodeIgnore (content.take 1024)).map asciiLowerCp)
            || [91].isPrefixOf ((utf8DecodeIgnore (content.take 1024)).map asciiLowerCp) then ".json"
        else if ((utf8DecodeIgnore (content.take 1024)).map asciiLowerCp).contains 44
            && ((utf8DecodeIgnore (content.take 1024)).map asciiLowerCp).contains 10 then ".csv"
        else ".file") ∈ _
      split
      · decide
      · split
        · decide
        · split
          · decide
          · decide
    · rw [hfind]
      have hsnd : ext ∈ GetInvestmentsData.magic_numbers.map Prod.snd :=
        List.mem_map_of_mem Prod.snd (List.mem_of_find?_eq_some hfind)
      show (if magic = [0x50, 0x4B, 0x03, 0x04] then
          (if bytesContains (strCps "xl/") (content.take 1024)
              || bytesContains (strCps "[Content_Types].xml") (content.take 1024) then ".xlsx"
           else if bytesContains (strCps "word/") (content.take 1024) then ".docx"
           else ".zip")
        else ext) ∈ _
      split
      · split
        · decide
        · split
          · decide
          · decide
      · fin_cases hsnd <;> decide

theorem detect_mem_controls (content : List Nat) :
    GetOtherControls.detect_file_type_from_content content = ".xls"
      ∨ GetOtherControls.detect_file_type_from_content content = ".xlsx" := by
  unfold GetOtherControls.detect_file_type_from_content
  split
  · right; rfl
  · rcases hfind : GetOtherControls.magic_numbers.find? (fun p => p.1.isPrefixOf content)
      with _ | ⟨magic, ext⟩
    · rw [hfind]
      right; rfl
    · rw [hfind]
      have hsnd : ext ∈ GetOtherControls.magic_numbers.map Prod.snd :=
        List.mem_map_of_mem Prod.snd (List.mem_of_find?_eq_some hfind)
      show (if [0x50, 0x4B].isPrefixOf magic then
          (if bytesContains (strCps "xl/") (content.take 1024)
              || bytesContains (strCps "[Content_Types].xml") (content.take 1024) then ".xlsx"
           else ext)
          else ext) = ".xls"
        ∨ (if [0x50, 0x4B].isPrefixOf magic then
          (if bytesContains (strCps "xl/") (content.take 1024)
              || bytesContains (strCps "[Content_Types].xml") (content.take 1024) then ".xlsx"
           else ext)
          else ext) = ".xlsx"
      split
      · split
        · right; rfl
        · fin_cases hsnd <;> simp
      · fin_cases hsnd <;> simp

theorem detect_investments_no_magic (content : List Nat) (hne : content ≠ [])
    (hm : ∀ q ∈ GetInvestmentsData.magic_numbers, q.1.isPrefixOf content = false) :
    GetInvestmentsData.detect_file_type_from_content content =
      (if (strCps "<?xml").isPrefixOf ((utf8DecodeIgnore (content.take 1024)).map asciiLowerCp)
        then ".xml"
       else if [123].isPrefixOf ((utf8DecodeIgnore (content.take 1024)).map asciiLowerCp)
          || [91].isPrefixOf ((utf8DecodeIgnore (content.take 1024)).map asciiLowerCp)
        then ".json"
       else if ((utf8DecodeIgnore (content.take 1024)).map asciiLowerCp).contains 44
          && ((utf8DecodeIgnore (content.take 1024)).map asciiLowerCp).contains 10
        then ".csv"
       else ".file") := by
  unfold GetInvestmentsData.detect_file_type_from_content
  rw [if_neg hne]
  have hfind : GetInvestmentsData.magic_numbers.find? (fun p => p.1.isPrefixOf content)
      = none := by
    rw [List.find?_eq_none]
    intro x hx
    simp [hm x hx]
  rw [hfind]

theorem detect_controls_no_magic (content : List Nat)
    (hm : ∀ q ∈ GetOtherControls.magic_numbers, q.1.isPrefixOf content = false) :
    GetOtherControls.detect_file_type_from_content content = ".xlsx" := by
  unfold GetOtherControls.detect_file_type_from_content
  split
  · rfl
  · have hfind : GetOtherControls.magic_numbers.find? (fun p => p.1.isPrefixOf content)
        = none := by
      rw [List.find?_eq_none]
      intro x hx
      simp [hm x hx]
    rw [hfind]


theorem resolveExtension_controls_content {ec eh : String}
    (h : ec = ".xls" ∨ ec = ".xlsx") :
    GetOtherControls.resolveExtension ec eh = ec := by
  unfold GetOtherControls.resolveExtension
  rw [if_pos h]

theorem downloadWith_ok (d : List Nat → String) (g : String → String)
    (r : String → String → String) (ct : String) (c : List Nat)
    (cs : List (List Nat)) (base : String) :
    downloadWith d g r ⟨some (ct, c :: cs), none, false, none⟩ base
      = ((true, some (base ++ r (d c) (g ct))),
         FsEffect.wrote (base ++ r (d c) (g ct)) ((c :: cs).flatten)) := rfl

theorem downloadWith_shape (d : List Nat → String) (g : String → String)
    (r : String → String → String) (env : DownloadEnv) (base : String) :
    (∃ f, (downloadWith d g r env base).1 = (true, some f))
      ∨ (downloadWith d g r env base).1 = (false, none) := by
  obtain ⟨resp, serr, oerr, werr⟩ := env
  rcases resp with _ | ⟨ct, chunks⟩
  · right; rfl
  · rcases serr with _ | k
    · rcases chunks with _ | ⟨c, cs⟩
      · right; rfl
      · rcases oerr with _ | _
        · rcases werr with _ | j
          · left; exact ⟨_, rfl⟩
          · unfold downloadWith
            dsimp only
            by_cases hj : j < (c :: cs).length
            · rw [if_pos hj]
              right; rfl
            · rw [if_neg hj]
              left; exact ⟨_, rfl⟩
        · right; rfl
    · right; rfl

theorem downloadWith_response_none (d : List Nat → String) (g : String → String)
    (r : String → String → String) (env : DownloadEnv) (base : String)
    (h : env.response = none) :
    downloadWith d g r env base = ((false, none), FsEffect.noFile) := by
  obtain ⟨resp, serr, oerr, werr⟩ := env
  have h2 : resp = none := h
  subst h2
  rfl

theorem downloadWith_stream_err (d : List Nat → String) (g : String → String)
    (r : String → String → String) (env : DownloadEnv) (base : String) (k : Nat)
    (h : env.streamErr = some k) :
    downloadWith d g r env base = ((false, none), FsEffect.noFile) := by
  obtain ⟨resp, serr, oerr, werr⟩ := env
  have h2 : serr = some k := h
  subst h2
  rcases resp with _ | ⟨ct, chunks⟩ <;> rfl

theorem downloadWith_open_err (d : List Nat → String) (g : String → String)
    (r : String → String → String) (env : DownloadEnv) (base : String)
    (h : env.openErr = true) :
    downloadWith d g r env base = ((false, none), FsEffect.noFile) := by
  obtain ⟨resp, serr, oerr, werr⟩ := env
  have h2 : oerr = true := h
  subst h2
  rcases resp with _ | ⟨ct, chunks⟩
  · rfl
  · rcases serr with _ | k
    · rcases chunks with _ | ⟨c, cs⟩ <;> rfl
    · rfl

theorem downloadWith_empty_chunks (d : List Nat → String) (g : String → String)
    (r : String → String → String) (env : DownloadEnv) (base : String) (ct : String)
    (h : env.response = some (ct, [])) :
    downloadWith d g r env base = ((false, none), FsEffect.noFile) := by
  obtain ⟨resp, serr, oerr, werr⟩ := env
  have h2 : resp = some (ct, []) := h
  subst h2
  rcases serr with _ | k <;> rfl

theorem downloadWith_write_err (d : List Nat → String) (g : String → String)
    (r : String → String → String) (env : DownloadEnv) (base : String) (ct : String)
    (chunks : List (List Nat)) (j : Nat)
    (hr : env.response = some (ct, chunks)) (hw : env.writeErr = some j)
    (hj : j < chunks.length) :
    (downloadWith d g r env base).1 = (false, none) := by
  obtain ⟨resp, serr, oerr, werr⟩ := env
  have h2 : resp = some (ct, chunks) := hr
  have h3 : werr = some j := hw
  subst h2
  subst h3
  rcases serr with _ | k
  · rcases chunks with _ | ⟨c, cs⟩
    · rfl
    · rcases oerr with _ | _
      · unfold downloadWith
        dsimp only
        rw [if_pos hj]
        rfl
      · rfl
  · rfl

theorem downloadWith_fail_noFile (d : List Nat → String) (g : String → String)
    (r : String → String → String) (env : DownloadEnv) (base : String)
    (hw : env.writeErr = none)
    (hf : (downloadWith d g r env base).1.1 = false) :
    (downloadWith d g r env base).2 = FsEffect.noFile := by
  obtain ⟨resp, serr, oerr, werr⟩ := env
  have h3 : werr = none := hw
  subst h3
  rcases resp with _ | ⟨ct, chunks⟩
  · rfl
  · rcases serr with _ | k
    · rcases chunks with _ | ⟨c, cs⟩
      · rfl
      · rcases oerr with _ | _
        · exact absurd hf (by simp [downloadWith])
        · rfl
    · rfl

theorem downloadWith_success_effect (d : List Nat → String) (g : String → String)
    (r : String → String → String) (env : DownloadEnv) (base : String) (ct : String)
    (chunks : List (List Nat))
    (hr : env.response = some (ct, chunks))
    (hs : (downloadWith d g r env base).1.1 = true) :
    ∃ name, (downloadWith d g r env base).1.2 = some name
      ∧ (downloadWith d g r env base).2 = FsEffect.wrote name chunks.flatten := by
  obtain ⟨resp, serr, oerr, werr⟩ := env
  have h2 : resp = some (ct, chunks) := hr
  subst h2
  rcases serr with _ | k
  · rcases chunks with _ | ⟨c, cs⟩
    · simp [downloadWith] at hs
    · rcases oerr with _ | _
      · rcases werr with _ | j
        · exact ⟨_, rfl, rfl⟩
        · unfold downloadWith at hs ⊢
          dsimp only at hs ⊢
          by_cases hj : j < (c :: cs).length
          · rw [if_pos hj] at hs
            simp at hs
          · rw [if_neg hj]
            exact ⟨_, rfl, rfl⟩
      · simp [downloadWith] at hs
  · simp [downloadWith] at hs

theorem downloadWith_success_filename (d : List Nat → String) (g : String → String)
    (r : String → String → String) (env : DownloadEnv) (base : String)
    (hs : (downloadWith d g r env base).1.1 = true) :
    ∃ ct c cs, env.response = some (ct, c :: cs)
      ∧ (downloadWith d g r env base).1.2 = some (base ++ r (d c) (g ct)) := by
  obtain ⟨resp, serr, oerr, werr⟩ := env
  rcases resp with _ | ⟨ct, chunks⟩
  · simp [downloadWith] at hs
  · rcases serr with _ | k
    · rcases chunks with _ | ⟨c, cs⟩
      · simp [downloadWith] at hs
      · rcases oerr with _ | _
        · rcases werr with _ | j
          · exact ⟨ct, c, cs, rfl, rfl⟩
          · unfold downloadWith at hs ⊢
            dsimp only at hs ⊢
            by_cases hj : j < (c :: cs).length
            · rw [if_pos hj] at hs
              simp at hs
            · rw [if_neg hj]
              exact ⟨ct, c, cs, rfl, rfl⟩
        · simp [downloadWith] at hs
    · simp [downloadWith] at hs

theorem length_pyStripSet_le (set l : List Char) :
    (GetOtherControls.pyStripSet set l).length ≤ l.length :=
  le_trans (pyStripSet_leading set l).length_le (List.dropWhile_sublist _).length_le

set_option maxHeartbeats 1000000 in
/-- Claim C6 (amended): sanitize_filename returns at most 200 characters,
none of them a disallowed character; the result never begins with a dot or
a space, and when the input has at most 200 characters it also never ends
with one.  Only dot and space characters are stripped (other whitespace
such as a tab is kept), and truncation of longer inputs can leave a
trailing dot or space. -/
theorem C6_sanitize_guarantees (s : String) :
    (GetOtherControls.sanitize_filename s).toList.length ≤ 200
  ∧ (∀ c ∈ (GetOtherControls.sanitize_filename s).toList, c ∉ GetOtherControls.invalid_chars)
  ∧ (∀ c, (GetOtherControls.sanitize_filename s).toList.head? = some c → c ≠ '.' ∧ c ≠ ' ')
  ∧ (s.toList.length ≤ 200 →
      ∀ c, (GetOtherControls.sanitize_filename s).toList.getLast? = some c →
        c ≠ '.' ∧ c ≠ ' ') := by
  have key : (GetOtherControls.sanitize_filename s).toList
      = (if (GetOtherControls.pyStripSet ['.', ' ']
              (GetOtherControls.invalid_chars.foldl
                (fun acc c => GetOtherControls.pyReplaceChar c '_' acc) s.toList)).length > 200
         then (GetOtherControls.pyStripSet ['.', ' ']
              (GetOtherControls.invalid_chars.foldl
                (fun acc c => GetOtherControls.pyReplaceChar c '_' acc) s.toList)).take 200
         else GetOtherControls.pyStripSet ['.', ' ']
              (GetOtherControls.invalid_chars.foldl
                (fun acc c => GetOtherControls.pyReplaceChar c '_' acc) s.toList)) := rfl
  refine ⟨?_, ?_, ?_, ?_⟩
  · rw [key]
    split
    · simp [List.length_take]
    · rename_i hlen
      omega
  · intro c hc
    rw [key] at hc
    have hcT : c ∈ GetOtherControls.pyStripSet ['.', ' ']
        (GetOtherControls.invalid_chars.foldl
          (fun acc c => GetOtherControls.pyReplaceChar c '_' acc) s.toList) := by
      split at hc
      · exact List.take_subset _ _ hc
      · exact hc
    have hcR := pyStripSet_subset hcT
    rcases mem_replace_foldl _ _ hcR with h1 | ⟨h2, h3⟩
    · subst h1
      decide
    · exact h3
  · intro c hc
    rw [key] at hc
    have hcT : (GetOtherControls.pyStripSet ['.', ' ']
        (GetOtherControls.invalid_chars.foldl
          (fun acc c => GetOtherControls.pyReplaceChar c '_' acc) s.toList)).head? = some c := by
      split at hc
      · rw [head?_take_200] at hc
        exact hc
      · exact hc
    have := head?_pyStripSet hcT
    simp only [List.mem_cons, List.not_mem_nil, or_false, not_or] at this
    exact ⟨this.1, this.2⟩
  · intro hlen c hc
    rw [key] at hc
    have hT : (GetOtherControls.pyStripSet ['.', ' ']
        (GetOtherControls.invalid_chars.foldl
          (fun acc c => GetOtherControls.pyReplaceChar c '_' acc) s.toList)).length ≤ 200 := by
      calc (GetOtherControls.pyStripSet ['.', ' ']
            (GetOtherControls.invalid_chars.foldl
              (fun acc c => GetOtherControls.pyReplaceChar c '_' acc) s.toList)).length
          ≤ (GetOtherControls.invalid_chars.foldl
              (fun acc c => GetOtherControls.pyReplaceChar c '_' acc) s.toList).length :=
            length_pyStripSet_le _ _
        _ = s.toList.length := length_replace_foldl _ _
        _ ≤ 200 := hlen
    rw [if_neg (by omega)] at hc
    have := getLast?_pyStripSet hc
    simp only [List.mem_cons, List.not_mem_nil, or_false, not_or] at this
    exact ⟨this.1, this.2⟩

set_option maxRecDepth 10000 in
/-- Claim C6 counterexample: a leading tab survives sanitize_filename (only
dots and spaces are stripped), and truncation of a long input leaves a
trailing dot; both contradict the claim as stated. -/
theorem C6_counterexample :
    GetOtherControls.sanitize_filename (String.mk ['\t', 'a']) = String.mk ['\t', 'a']
  ∧ Char.isWhitespace '\t' = true
  ∧ (GetOtherControls.sanitize_filename
      (String.mk (List.replicate 199 'a' ++ ['.'] ++ List.replicate 20 'b'))).toList.getLast?
      = some '.' := by decide

/-- Witness for the amended claim C6 at concrete inputs. -/
theorem C6_witness :
    (GetOtherControls.sanitize_filename "report 2020").toList.length ≤ 200
  ∧ ('r' ≠ '.' ∧ 'r' ≠ ' ')
  ∧ ('0' ≠ '.' ∧ '0' ≠ ' ') := by
  refine ⟨(C6_sanitize_guarantees "report 2020").1, ?_, ?_⟩
  · exact (C6_sanitize_guarantees "report 2020").2.2.1 'r' (by decide)
  · exact (C6_sanitize_guarantees "report 2020").2.2.2 (by decide) '0' (by decide)

theorem brace_prefix_not_xml (t : List Nat) (h : [123].isPrefixOf t = true) :
    (strCps "<?xml").isPrefixOf t = false := by
  cases t with
  | nil => simp [List.isPrefixOf] at h
  | cons a t' =>
    simp only [List.isPrefixOf, Bool.and_eq_true, beq_iff_eq] at h
    rw [← h.1]
    simp [strCps, List.isPrefixOf]

/-- Claim C1 counterexample (spreadsheet-only profile): on the body bytes of
the text hello no signature matches, so the signature classifier returns
the fallback sentinel .xlsx, while the metadata classifier maps text/csv
to the non-sentinel .csv; the claim says the metadata label must then be
used, but the pipeline resolves .xlsx. -/
theorem C1_counterexample :
    GetOtherControls.detect_file_type_from_content (strCps "hello") = ".xlsx"
  ∧ GetOtherControls.get_file_extension_from_content_type "text/csv" = ".csv"
  ∧ (".csv" : String) ≠ ".xlsx"
  ∧ (GetOtherControls.download_file
      ⟨some ("text/csv", [strCps "hello"]), none, false, none⟩ "f").1
      = (true, some "f.xlsx") := by decide

/-- Claim C1 (amended): in the general profile the precedence law holds as
stated with sentinel .file: a non-sentinel signature label always wins, a
sentinel signature label defers to a non-sentinel metadata label, and two
sentinels resolve to the default .file.  In the spreadsheet-only profile
the resolution tests membership in the set of .xls and .xlsx instead of
comparing with the sentinel: a signature label in that set — including
the sentinel .xlsx itself — always wins, a metadata label in the set is
used only when the signature label is outside it, and the default is
.xlsx; since the signature classifier only ever returns .xls or .xlsx,
the resolved label of that profile always equals the signature label. -/
theorem C1_precedence :
    (∀ ec eh : String, ec ≠ ".file" → GetInvestmentsData.resolveExtension ec eh = ec)
  ∧ (∀ eh : String, eh ≠ ".file" → GetInvestmentsData.resolveExtension ".file" eh = eh)
  ∧ GetInvestmentsData.resolveExtension ".file" ".file" = ".file"
  ∧ (∀ ec eh : String, ec = ".xls" ∨ ec = ".xlsx" →
      GetOtherControls.resolveExtension ec eh = ec)
  ∧ (∀ ec eh : String, ¬(ec = ".xls" ∨ ec = ".xlsx") → (eh = ".xls" ∨ eh = ".xlsx") →
      GetOtherControls.resolveExtension ec eh = eh)
  ∧ (∀ ec eh : String, ¬(ec = ".xls" ∨ ec = ".xlsx") → ¬(eh = ".xls" ∨ eh = ".xlsx") →
      GetOtherControls.resolveExtension ec eh = ".xlsx")
  ∧ (∀ (c : List Nat) (eh : String), GetOtherControls.resolveExtension
      (GetOtherControls.detect_file_type_from_content c) eh
      = GetOtherControls.detect_file_type_from_content c)
  ∧ (∀ (ct : String) (c : List Nat) (cs : List (List Nat)) (base : String),
      (GetInvestmentsData.download_file ⟨some (ct, c :: cs), none, false, none⟩ base).1
        = (true, some (base ++ GetInvestmentsData.resolveExtension
            (GetInvestmentsData.detect_file_type_from_content c)
            (GetInvestmentsData.get_file_extension_from_content_type ct))))
  ∧ (∀ (ct : String) (c : List Nat) (cs : List (List Nat)) (base : String),
      (GetOtherControls.download_file ⟨some (ct, c :: cs), none, false, none⟩ base).1
        = (true, some (base ++ GetOtherControls.detect_file_type_from_content c))) := by
  refine ⟨?_, ?_, rfl, ?_, ?_, ?_, ?_, ?_, ?_⟩
  · intro ec eh h
    unfold GetInvestmentsData.resolveExtension
    rw [if_pos h]
  · intro eh h
    unfold GetInvestmentsData.resolveExtension
    rw [if_neg (by simp), if_pos h]
  · intro ec eh h
    exact resolveExtension_controls_content h
  · intro ec eh h1 h2
    unfold GetOtherControls.resolveExtension
    rw [if_neg h1, if_pos h2]
  · intro ec eh h1 h2
    unfold GetOtherControls.resolveExtension
    rw [if_neg h1, if_neg h2]
  · intro c eh
    exact resolveExtension_controls_content (detect_mem_controls c)
  · intro ct c cs base
    exact congrArg Prod.fst (downloadWith_ok GetInvestmentsData.detect_file_type_from_content
      GetInvestmentsData.get_file_extension_from_content_type
      GetInvestmentsData.resolveExtension ct c cs base)
  · intro ct c cs base
    have h2 := congrArg Prod.fst (downloadWith_ok GetOtherControls.detect_file_type_from_content
      GetOtherControls.get_file_extension_from_content_type
      GetOtherControls.resolveExtension ct c cs base)
    rw [resolveExtension_controls_content (detect_mem_controls c)] at h2
    exact h2

/-- Witness for the amended claim C1 at concrete labels and a concrete
pipeline run. -/
theorem C1_witness :
    GetInvestmentsData.resolveExtension ".pdf" ".csv" = ".pdf"
  ∧ GetInvestmentsData.resolveExtension ".file" ".csv" = ".csv"
  ∧ GetOtherControls.resolveExtension ".xls" ".csv" = ".xls"
  ∧ GetOtherControls.resolveExtension ".csv" ".xls" = ".xls"
  ∧ (GetInvestmentsData.download_file
      ⟨some ("", [[0x25, 0x50, 0x44, 0x46]]), none, false, none⟩ "report").1
      = (true, some ("report" ++ GetInvestmentsData.resolveExtension
          (GetInvestmentsData.detect_file_type_from_content [0x25, 0x50, 0x44, 0x46])
          (GetInvestmentsData.get_file_extension_from_content_type ""))) :=
  ⟨C1_precedence.1 ".pdf" ".csv" (by decide),
   C1_precedence.2.1 ".csv" (by decide),
   C1_precedence.2.2.2.1 ".xls" ".csv" (Or.inl rfl),
   C1_precedence.2.2.2.2.1 ".csv" ".xls" (by decide) (Or.inl rfl),
   C1_precedence.2.2.2.2.2.2.2.1 "" [0x25, 0x50, 0x44, 0x46] [] "report"⟩

/-- Claim C2: on a buffer beginning with the ZIP signature 50 4B 03 04, the
general-profile signature classifier returns .xlsx when the first 1024
bytes contain a spreadsheet-package marker (xl/ or the package manifest
name), .docx when they contain word/ and no spreadsheet marker, and .zip
when neither marker is present. -/
theorem C2_zip_disambiguation (content : List Nat)
    (h : [0x50, 0x4B, 0x03, 0x04].isPrefixOf content = true) :
    ((bytesContains (strCps "xl/") (content.take 1024)
        || bytesContains (strCps "[Content_Types].xml") (content.take 1024)) = true →
      GetInvestmentsData.detect_file_type_from_content content = ".xlsx")
  ∧ ((bytesContains (strCps "xl/") (content.take 1024)
        || bytesContains (strCps "[Content_Types].xml") (content.take 1024)) = false →
      bytesContains (strCps "word/") (content.take 1024) = true →
      GetInvestmentsData.detect_file_type_from_content content = ".docx")
  ∧ ((bytesContains (strCps "xl/") (content.take 1024)
        || bytesContains (strCps "[Content_Types].xml") (content.take 1024)) = false →
      bytesContains (strCps "word/") (content.take 1024) = false →
      GetInvestmentsData.detect_file_type_from_content content = ".zip") := by
  rw [detect_investments_zip content h]
  refine ⟨fun h1 => ?_, fun h1 h2 => ?_, fun h1 h2 => ?_⟩
  · simp [h1]
  · simp [h1, h2]
  · simp [h1, h2]

/-- Witness for claim C2 at concrete ZIP-family buffers. -/
theorem C2_witness :
    GetInvestmentsData.detect_file_type_from_content
      ([0x50, 0x4B, 0x03, 0x04] ++ strCps "xl/workbook.xml") = ".xlsx"
  ∧ GetInvestmentsData.detect_file_type_from_content
      ([0x50, 0x4B, 0x03, 0x04] ++ strCps "word/document") = ".docx"
  ∧ GetInvestmentsData.detect_file_type_from_content
      [0x50, 0x4B, 0x03, 0x04, 0, 0] = ".zip" :=
  ⟨(C2_zip_disambiguation _ (by decide)).1 (by decide),
   (C2_zip_disambiguation _ (by decide)).2.1 (by decide) (by decide),
   (C2_zip_disambiguation _ (by decide)).2.2 (by decide) (by decide)⟩

/-- Claim C3 counterexample: when the file write itself raises (modelled by
writeErr), the call returns the failure outcome (false, none) and still
leaves a file on disk (here the opened-and-truncated empty file), so a
failure outcome does not imply that no file was created or overwritten. -/
theorem C3_counterexample :
    GetInvestmentsData.download_file ⟨some ("", [[49]]), none, false, some 0⟩ "f"
      = ((false, none), FsEffect.wrote "f.file" [])
  ∧ FsEffect.wrote "f.file" [] ≠ FsEffect.noFile := by decide

/-- Claim C3 (amended): the write happens only after the full body has been
buffered — a successful call writes the whole chunk sequence at once, and
any failure that occurs before the write step (transport error, streaming
error, empty body, open error) leaves no file.  Only a failure of the
write call itself can leave a (partial) file behind. -/
theorem C3_no_partial_on_failure (env : DownloadEnv) (base : String) :
    (env.writeErr = none → (GetInvestmentsData.download_file env base).1.1 = false →
      (GetInvestmentsData.download_file env base).2 = FsEffect.noFile)
  ∧ (env.writeErr = none → (GetOtherControls.download_file env base).1.1 = false →
      (GetOtherControls.download_file env base).2 = FsEffect.noFile)
  ∧ (∀ ct chunks, env.response = some (ct, chunks) →
      (GetInvestmentsData.download_file env base).1.1 = true →
      ∃ name, (GetInvestmentsData.download_file env base).1.2 = some name
        ∧ (GetInvestmentsData.download_file env base).2 = FsEffect.wrote name chunks.flatten)
  ∧ (∀ ct chunks, env.response = some (ct, chunks) →
      (GetOtherControls.download_file env base).1.1 = true →
      ∃ name, (GetOtherControls.download_file env base).1.2 = some name
        ∧ (GetOtherControls.download_file env base).2 = FsEffect.wrote name chunks.flatten) :=
  ⟨fun hw hf => downloadWith_fail_noFile _ _ _ env base hw hf,
   fun hw hf => downloadWith_fail_noFile _ _ _ env base hw hf,
   fun ct chunks hr hs => downloadWith_success_effect _ _ _ env base ct chunks hr hs,
   fun ct chunks hr hs => downloadWith_success_effect _ _ _ env base ct chunks hr hs⟩

/-- Witness for the amended claim C3: a transport failure leaves no file,
and a successful call writes the full buffered body. -/
theorem C3_witness :
    (GetInvestmentsData.download_file ⟨none, none, false, none⟩ "f").2 = FsEffect.noFile
  ∧ (∃ name, (GetOtherControls.download_file
        ⟨some ("", [[1, 2]]), none, false, none⟩ "g").1.2 = some name
      ∧ (GetOtherControls.download_file ⟨some ("", [[1, 2]]), none, false, none⟩ "g").2
          = FsEffect.wrote name ([[1, 2]] : List (List Nat)).flatten) :=
  ⟨(C3_no_partial_on_failure ⟨none, none, false, none⟩ "f").1 rfl (by decide),
   (C3_no_partial_on_failure ⟨some ("", [[1, 2]]), none, false, none⟩ "g").2.2.2
     "" [[1, 2]] rfl (by decide)⟩

/-- Claim C4: neither download_file lets a failure escape: the result is
always either a success carrying a filename or exactly (false, none), and
each failure source — transport failure, an error while consuming the
body, an error opening the file, an error during a write — yields the
failure outcome (false, none). -/
theorem C4_no_exception_escape (env : DownloadEnv) (base : String) :
    ((∃ f, (GetInvestmentsData.download_file env base).1 = (true, some f))
      ∨ (GetInvestmentsData.download_file env base).1 = (false, none))
  ∧ ((∃ f, (GetOtherControls.download_file env base).1 = (true, some f))
      ∨ (GetOtherControls.download_file env base).1 = (false, none))
  ∧ (env.response = none →
      (GetInvestmentsData.download_file env base).1 = (false, none)
        ∧ (GetOtherControls.download_file env base).1 = (false, none))
  ∧ (∀ k, env.streamErr = some k →
      (GetInvestmentsData.download_file env base).1 = (false, none)
        ∧ (GetOtherControls.download_file env base).1 = (false, none))
  ∧ (env.openErr = true →
      (GetInvestmentsData.download_file env base).1 = (false, none)
        ∧ (GetOtherControls.download_file env base).1 = (false, none))
  ∧ (∀ ct chunks j, env.response = some (ct, chunks) → env.writeErr = some j →
      j < chunks.length →
      (GetInvestmentsData.download_file env base).1 = (false, none)
        ∧ (GetOtherControls.download_file env base).1 = (false, none)) :=
  ⟨downloadWith_shape _ _ _ env base,
   downloadWith_shape _ _ _ env base,
   fun h => ⟨congrArg Prod.fst (downloadWith_response_none _ _ _ env base h),
             congrArg Prod.fst (downloadWith_response_none _ _ _ env base h)⟩,
   fun k h => ⟨congrArg Prod.fst (downloadWith_stream_err _ _ _ env base k h),
               congrArg Prod.fst (downloadWith_stream_err _ _ _ env base k h)⟩,
   fun h => ⟨congrArg Prod.fst (downloadWith_open_err _ _ _ env base h),
             congrArg Prod.fst (downloadWith_open_err _ _ _ env base h)⟩,
   fun ct chunks j hr hw hj =>
     ⟨downloadWith_write_err _ _ _ env base ct chunks j hr hw hj,
      downloadWith_write_err _ _ _ env base ct chunks j hr hw hj⟩⟩

/-- Witness for claim C4 at concrete failing environments. -/
theorem C4_witness :
    (GetInvestmentsData.download_file ⟨none, none, false, none⟩ "f").1 = (false, none)
  ∧ (GetOtherControls.download_file ⟨some ("", [[7]]), none, false, some 0⟩ "g").1
      = (false, none) :=
  ⟨((C4_no_exception_escape ⟨none, none, false, none⟩ "f").2.2.1 rfl).1,
   ((C4_no_exception_escape ⟨some ("", [[7]]), none, false, some 0⟩ "g").2.2.2.2.2
     "" [[7]] 0 rfl rfl (by decide)).2⟩

/-- Claim C5: both signature classifiers are total functions of the buffer:
on the empty buffer they return the profile fallback (.file and .xlsx),
every output lies in a fixed finite label set, and buffers containing
undecodable bytes are handled by the ignore-errors decoding (the invalid
bytes are skipped and sniffing proceeds on the rest). -/
theorem C5_classifier_totality :
    GetInvestmentsData.detect_file_type_from_content [] = ".file"
  ∧ GetOtherControls.detect_file_type_from_content [] = ".xlsx"
  ∧ (∀ content, GetInvestmentsData.detect_file_type_from_content content ∈
      ([".xlsx", ".docx", ".zip", ".rar", ".7z", ".pdf", ".xls", ".gz", ".bz2",
        ".xml", ".json", ".csv", ".file"] : List String))
  ∧ (∀ content, GetOtherControls.detect_file_type_from_content content = ".xls"
      ∨ GetOtherControls.detect_file_type_from_content content = ".xlsx")
  ∧ GetInvestmentsData.detect_file_type_from_content
      (0xFF :: 0xFE :: (strCps "a,b" ++ [10, 0x80])) = ".csv"
  ∧ GetInvestmentsData.detect_file_type_from_content [0xFF, 123, 34, 97, 34] = ".json" :=
  ⟨rfl, rfl, detect_mem_investments, detect_mem_controls, by decide, by decide⟩

/-- Claim C7: both metadata classifiers are invariant under dropping
everything from the first semicolon on, under ASCII lower-casing of the
header value, and under added leading or trailing spaces; the concrete
header text/csv with a charset parameter maps to .csv exactly as the
stripped form does. -/
theorem C7_content_type_normalisation :
    (∀ s : String, GetInvestmentsData.get_file_extension_from_content_type s
      = GetInvestmentsData.get_file_extension_from_content_type (truncateAtFirstSemicolon s))
  ∧ (∀ s : String, GetOtherControls.get_file_extension_from_content_type s
      = GetOtherControls.get_file_extension_from_content_type (truncateAtFirstSemicolon s))
  ∧ GetInvestmentsData.get_file_extension_from_content_type "text/csv; charset=utf-8" = ".csv"
  ∧ GetInvestmentsData.get_file_extension_from_content_type "text/csv" = ".csv"
  ∧ GetOtherControls.get_file_extension_from_content_type "text/csv; charset=utf-8" = ".csv"
  ∧ GetOtherControls.get_file_extension_from_content_type "text/csv" = ".csv"
  ∧ (∀ l : List Nat,
      GetInvestmentsData.get_file_extension_from_content_type_cps (l.map asciiLowerCp)
        = GetInvestmentsData.get_file_extension_from_content_type_cps l)
  ∧ (∀ l : List Nat,
      GetOtherControls.get_file_extension_from_content_type_cps (l.map asciiLowerCp)
        = GetOtherControls.get_file_extension_from_content_type_cps l)
  ∧ (∀ l : List Nat,
      GetInvestmentsData.get_file_extension_from_content_type_cps (32 :: l)
        = GetInvestmentsData.get_file_extension_from_content_type_cps l
      ∧ GetInvestmentsData.get_file_extension_from_content_type_cps (l ++ [32])
        = GetInvestmentsData.get_file_extension_from_content_type_cps l)
  ∧ (∀ l : List Nat,
      GetOtherControls.get_file_extension_from_content_type_cps (32 :: l)
        = GetOtherControls.get_file_extension_from_content_type_cps l
      ∧ GetOtherControls.get_file_extension_from_content_type_cps (l ++ [32])
        = GetOtherControls.get_file_extension_from_content_type_cps l) := by
  refine ⟨?_, ?_, by decide, by decide, by decide, by decide, ?_, ?_, ?_, ?_⟩
  · intro s
    unfold GetInvestmentsData.get_file_extension_from_content_type
      GetInvestmentsData.get_file_extension_from_content_type_cps
    rw [strCps_truncate]
    exact (lookupExtension_ext (cleanContentType_truncate (strCps s))).symm
  · intro s
    unfold GetOtherControls.get_file_extension_from_content_type
      GetOtherControls.get_file_extension_from_content_type_cps
    rw [strCps_truncate]
    exact (lookupExtension_ext (cleanContentType_truncate (strCps s))).symm
  · intro l
    unfold GetInvestmentsData.get_file_extension_from_content_type_cps
    exact lookupExtension_ext (cleanContentType_lower l)
  · intro l
    unfold GetOtherControls.get_file_extension_from_content_type_cps
    exact lookupExtension_ext (cleanContentType_lower l)
  · intro l
    unfold GetInvestmentsData.get_file_extension_from_content_type_cps
    exact ⟨lookupExtension_ext (cleanContentType_cons_space l),
           lookupExtension_ext (cleanContentType_append_space l)⟩
  · intro l
    unfold GetOtherControls.get_file_extension_from_content_type_cps
    exact ⟨lookupExtension_ext (cleanContentType_cons_space l),
           lookupExtension_ext (cleanContentType_append_space l)⟩

/-- Claim C8: on a non-empty buffer matching no signature, the general
classifier sniffs the best-effort-decoded, lower-cased first 1024 bytes in
order — XML declaration, then JSON delimiter, then comma-and-newline CSV
shape, then the fallback .file — and a pipeline run whose body decodes to
text starting with an opening brace resolves to .json and the filename
base ++ .json. -/
theorem C8_text_sniffing (content : List Nat) (hne : content ≠ [])
    (hm : ∀ q ∈ GetInvestmentsData.magic_numbers, q.1.isPrefixOf content = false) :
    ((strCps "<?xml").isPrefixOf ((utf8DecodeIgnore (content.take 1024)).map asciiLowerCp)
        = true →
      GetInvestmentsData.detect_file_type_from_content content = ".xml")
  ∧ ((strCps "<?xml").isPrefixOf ((utf8DecodeIgnore (content.take 1024)).map asciiLowerCp)
        = false →
      ([123].isPrefixOf ((utf8DecodeIgnore (content.take 1024)).map asciiLowerCp)
        || [91].isPrefixOf ((utf8DecodeIgnore (content.take 1024)).map asciiLowerCp)) = true →
      GetInvestmentsData.detect_file_type_from_content content = ".json")
  ∧ ((strCps "<?xml").isPrefixOf ((utf8DecodeIgnore (content.take 1024)).map asciiLowerCp)
        = false →
      ([123].isPrefixOf ((utf8DecodeIgnore (content.take 1024)).map asciiLowerCp)
        || [91].isPrefixOf ((utf8DecodeIgnore (content.take 1024)).map asciiLowerCp)) = false →
      (((utf8DecodeIgnore (content.take 1024)).map asciiLowerCp).contains 44
        && ((utf8DecodeIgnore (content.take 1024)).map asciiLowerCp).contains 10) = true →
      GetInvestmentsData.detect_file_type_from_content content = ".csv")
  ∧ ((strCps "<?xml").isPrefixOf ((utf8DecodeIgnore (content.take 1024)).map asciiLowerCp)
        = false →
      ([123].isPrefixOf ((utf8DecodeIgnore (content.take 1024)).map asciiLowerCp)
        || [91].isPrefixOf ((utf8DecodeIgnore (content.take 1024)).map asciiLowerCp)) = false →
      (((utf8DecodeIgnore (content.take 1024)).map asciiLowerCp).contains 44
        && ((utf8DecodeIgnore (content.take 1024)).map asciiLowerCp).contains 10) = false →
      GetInvestmentsData.detect_file_type_from_content content = ".file")
  ∧ (∀ (ct : String) (cs : List (List Nat)) (base : String),
      [123].isPrefixOf ((utf8DecodeIgnore (content.take 1024)).map asciiLowerCp) = true →
      (GetInvestmentsData.download_file ⟨some (ct, content :: cs), none, false, none⟩ base).1
        = (true, some (base ++ ".json"))) := by
  rw [detect_investments_no_magic content hne hm]
  refine ⟨fun h1 => by rw [if_pos h1],
    fun h1 h2 => by rw [if_neg (by rw [h1]; decide), if_pos h2],
    fun h1 h2 h3 => by rw [if_neg (by rw [h1]; decide), if_neg (by rw [h2]; decide), if_pos h3],
    fun h1 h2 h3 => by rw [if_neg (by rw [h1]; decide), if_neg (by rw [h2]; decide), if_neg (by rw [h3]; decide)],
    ?_⟩
  intro ct cs base hjson
  have hxml := brace_prefix_not_xml _ hjson
  have hdet : GetInvestmentsData.detect_file_type_from_content content = ".json" := by
    rw [detect_investments_no_magic content hne hm]
    rw [if_neg (by rw [hxml]; decide), if_pos (by simp [hjson])]
  have hres : GetInvestmentsData.resolveExtension ".json"
      (GetInvestmentsData.get_file_extension_from_content_type ct) = ".json" := by
    unfold GetInvestmentsData.resolveExtension
    rw [if_pos (by decide)]
  have h2 := congrArg Prod.fst (downloadWith_ok GetInvestmentsData.detect_file_type_from_content
    GetInvestmentsData.get_file_extension_from_content_type
    GetInvestmentsData.resolveExtension ct content cs base)
  rw [hdet, hres] at h2
  exact h2

/-- Witness for claim C8 on a concrete JSON-looking body. -/
theorem C8_witness :
    GetInvestmentsData.detect_file_type_from_content [0x7B, 0x22, 0x61, 0x22] = ".json"
  ∧ (GetInvestmentsData.download_file
      ⟨some ("", [[0x7B, 0x22, 0x61, 0x22]]), none, false, none⟩ "data").1
      = (true, some ("data" ++ ".json")) :=
  ⟨(C8_text_sniffing [0x7B, 0x22, 0x61, 0x22] (by decide) (by decide)).2.1
      (by decide) (by decide),
   (C8_text_sniffing [0x7B, 0x22, 0x61, 0x22] (by decide) (by decide)).2.2.2.2
      "" [] "data" (by decide)⟩

/-- Claim C9: when the HTTP exchange succeeds but the body yields no chunks,
both pipelines fail — the content-derived extension variable is never
assigned, reading it raises, the generic handler catches, and the call
returns (false, none) without touching the filesystem. -/
theorem C9_empty_body (env : DownloadEnv) (base : String) (ct : String)
    (h : env.response = some (ct, [])) :
    GetInvestmentsData.download_file env base = ((false, none), FsEffect.noFile)
  ∧ GetOtherControls.download_file env base = ((false, none), FsEffect.noFile) :=
  ⟨downloadWith_empty_chunks _ _ _ env base ct h,
   downloadWith_empty_chunks _ _ _ env base ct h⟩

/-- Witness for claim C9 on a concrete empty-bodied response. -/
theorem C9_witness :
    GetInvestmentsData.download_file ⟨some ("text/csv", []), none, false, none⟩ "f"
      = ((false, none), FsEffect.noFile) :=
  (C9_empty_body ⟨some ("text/csv", []), none, false, none⟩ "f" "text/csv" rfl).1

/-- Claim C10: the spreadsheet-only signature classifier only ever returns
.xls or .xlsx, and consequently every successful run of that pipeline
resolves a filename of the form base ++ ext with ext equal to .xls or
.xlsx (the metadata table entries .csv, .json, .txt, .xml can never become
the final extension). -/
theorem C10_controls_invariant :
    (∀ content, GetOtherControls.detect_file_type_from_content content = ".xls"
      ∨ GetOtherControls.detect_file_type_from_content content = ".xlsx")
  ∧ (∀ (env : DownloadEnv) (base : String),
      (GetOtherControls.download_file env base).1.1 = true →
      ∃ ext, (GetOtherControls.download_file env base).1.2 = some (base ++ ext)
        ∧ (ext = ".xls" ∨ ext = ".xlsx")) := by
  refine ⟨detect_mem_controls, fun env base hs => ?_⟩
  obtain ⟨ct, c, cs, hr, hf⟩ := downloadWith_success_filename
    GetOtherControls.detect_file_type_from_content
    GetOtherControls.get_file_extension_from_content_type
    GetOtherControls.resolveExtension env base hs
  refine ⟨GetOtherControls.detect_file_type_from_content c, ?_, detect_mem_controls c⟩
  rw [resolveExtension_controls_content (detect_mem_controls c)] at hf
  exact hf

/-- Witness for claim C10 on a concrete successful run. -/
theorem C10_witness :
    ∃ ext, (GetOtherControls.download_file
        ⟨some ("", [[1, 2, 3]]), none, false, none⟩ "f").1.2 = some ("f" ++ ext)
      ∧ (ext = ".xls" ∨ ext = ".xlsx") :=
  C10_controls_invariant.2 ⟨some ("", [[1, 2, 3]]), none, false, none⟩ "f" (by decide)
